import Mathlib

/-!
Verification of the Virtua Grotesk print-proof generator (proof.py).

Shallow embedding conventions:
* Python strings are modelled as lists of characters (`Str`); Python slicing
  maps to `List.take` / `List.drop` / `List.dropLast`.
* All page geometry is in integer tenths of a PostScript point (deci-points).
  Every floating constant in the source (1.3, 1.4, 1.5, 1.6, 1.8, 0.6, ...)
  has a single decimal digit and every coordinate is built from them by
  addition, subtraction and multiplication, so the fixed-point arithmetic is
  exact.  Font sizes stay in whole points (all sizes in the source are
  integer literals); a decrement such as `y -= size * 1.3` becomes
  `y - size * 13` in deci-points.
* The drawing backend capability `db.textSize` is an arbitrary function
  `Measure` from a string and a point size to a width in deci-points; page
  templates are parametric in it.
* A rendered page records its header chrome (`none` exactly when
  `draw_header` was not called), its footer date (`none` when `draw_footer`
  was not called) and the body items drawn on it, in drawing order.
  Coordinates are threaded through the layout loops (they drive the
  page-break and stop-early decisions) but are elided from the emitted items,
  which no claim inspects positionally.
* The character map is modelled by its list of codepoint keys (a Python dict
  iterates unique keys; where uniqueness matters a `Nodup` hypothesis makes
  it explicit).
-/

namespace VirtuaGrotesk

/-- Python strings as lists of characters. -/
abbrev Str := List Char

/-- Backend text measurement: string and point size to width in deci-points. -/
abbrev Measure := Str → ℤ → ℤ

/-- Page width, 612 pt (US Letter), in deci-points. -/
def PAGE_WIDTH : ℤ := 6120

/-- Page height, 792 pt (US Letter), in deci-points. -/
def PAGE_HEIGHT : ℤ := 7920

/-- Margin, 36 pt (half inch), in deci-points. -/
def MARGIN : ℤ := 360

/-- Font metadata snapshot extracted by get_font_info. -/
structure FontInfo where
  family : Str
  style : Str
  version : Str
  designer : Str
  glyph_count : ℕ
  upm : ℕ
deriving DecidableEq

/-- One drawing primitive emitted onto a page. -/
inductive Item where
  /-- Text drawn in the proof font at a point size (db.text). -/
  | text (s : Str) (size : ℤ)
  /-- Annotation text drawn in Helvetica: section headings, size labels, metadata lines. -/
  | label (s : Str)
  /-- One glyph-grid cell: bordered rect, centred glyph for the codepoint, hex codepoint label. -/
  | cell (cp : ℕ) (hexLabel : Str)
  /-- A paragraph set in a text box at a point size (db.textBox). -/
  | para (s : Str) (size : ℤ)
deriving DecidableEq

/-- Header chrome drawn by draw_header: family-plus-style on the left, page title on the right. -/
structure Chrome where
  name : Str
  title : Str
deriving DecidableEq

/-- One rendered page: header chrome, footer date, body items in drawing order. -/
structure Page where
  header : Option Chrome
  footer : Option Str
  items : List Item
deriving DecidableEq

/-- draw_header: the header line is the family name, a space, and the style name,
plus the page title. -/
def draw_header (info : FontInfo) (page_title : Str) : Chrome :=
  { name := info.family ++ [' '] ++ info.style, title := page_title }

/-- Result of the inlined width check used by the alphabet and numerals templates:
either the line fits and is drawn whole, or it is split at the character-count
midpoint and drawn as two lines. -/
inductive FitResult where
  | single (t : Str)
  | split (first second : Str)
deriving DecidableEq

/-- Text-fit decision of the source (alphabet and numerals pages): if the measured
width exceeds the budget, split at mid = len(text) // 2 into text[:mid] and
text[mid:]; otherwise keep the line whole. -/
def fitOrSplit (M : Measure) (t : Str) (size maxWidth : ℤ) : FitResult :=
  if M t size > maxWidth then
    FitResult.split (t.take (t.length / 2)) (t.drop (t.length / 2))
  else
    FitResult.single t

/-- Items drawn for a fit decision: a single line, or the two halves in order. -/
def renderFit (r : FitResult) (size : ℤ) : List Item :=
  match r with
  | FitResult.single t => [Item.text t size]
  | FitResult.split a b => [Item.text a size, Item.text b size]

/-- Truncation loop of the spacing page, fuel-indexed so that it evaluates:
while the measured width exceeds the budget and the length exceeds minLength,
drop the last two characters (line = line[:-2]). -/
def truncLoop (M : Measure) (size maxWidth : ℤ) (minLength : ℕ) : ℕ → Str → Str
  | 0, t => t
  | fuel + 1, t =>
    if M t size > maxWidth ∧ t.length > minLength then
      truncLoop M size maxWidth minLength fuel (t.dropLast.dropLast)
    else t

/-- The truncation of the spacing page: run the while loop; a fuel of the initial
length is enough since every iteration needs a nonempty string and shortens it. -/
def fitOrTruncate (M : Measure) (t : Str) (size maxWidth : ℤ) (minLength : ℕ) : Str :=
  truncLoop M size maxWidth minLength t.length t

/-- Title page (title_page in the source): family name at 48, style at 24,
three 72 pt specimen lines, then the metadata block.  The designer line is
inserted at index 2 when the designer field is nonempty.  No header, no
footer.  The argument now is the generation timestamp string. -/
def title_page (info : FontInfo) (now : Str) : Page :=
  let meta0 : List Str :=
    [ ("Family: ").data ++ info.family,
      ("Style: ").data ++ info.style,
      ("Version: ").data ++ info.version,
      ("Glyphs: ").data ++ (Nat.repr info.glyph_count).data,
      ("Units per Em: ").data ++ (Nat.repr info.upm).data,
      ("Generated: ").data ++ now ]
  let meta_lines : List Str :=
    if info.designer ≠ [] then
      meta0.take 2 ++ [("Designer: ").data ++ info.designer] ++ meta0.drop 2
    else meta0
  { header := none, footer := none,
    items :=
      [ Item.text info.family 48, Item.text info.style 24,
        Item.text (("Aa Bb Cc").data) 72, Item.text (("Dd Ee Ff").data) 72,
        Item.text (("Gg Hh Ii").data) 72 ]
        ++ meta_lines.map Item.label }

/-- Uppercase alphabet line of the alphabet page. -/
def uppercase : Str := ("ABCDEFGHIJKLMNOPQRSTUVWXYZ").data

/-- Lowercase alphabet line of the alphabet and spacing pages. -/
def lowercase : Str := ("abcdefghijklmnopqrstuvwxyz").data

/-- Body loop of the alphabet page over the size ladder.  Each size draws the
uppercase line (split in two when too wide, with an extra 1.3 em advance) and
the lowercase line likewise; the loop stops once the cursor would pass
MARGIN + 50 pt. -/
def alphabetLoop (M : Measure) : List ℤ → ℤ → List Item
  | [], _ => []
  | size :: rest, y =>
    let ru := fitOrSplit M uppercase size (PAGE_WIDTH - 2 * MARGIN)
    let y1 := match ru with
      | FitResult.single _ => y
      | FitResult.split _ _ => y - size * 13
    let y2 := y1 - size * 13
    let rl := fitOrSplit M lowercase size (PAGE_WIDTH - 2 * MARGIN)
    let y3 := match rl with
      | FitResult.single _ => y2
      | FitResult.split _ _ => y2 - size * 13
    let y4 := y3 - size * 18
    renderFit ru size ++ renderFit rl size
      ++ (if y4 < MARGIN + 500 then [] else alphabetLoop M rest y4)

/-- Alphabet page (alphabet_page in the source). -/
def alphabet_page (M : Measure) (info : FontInfo) (today : Str) : Page :=
  { header := some (draw_header info (("Alphabet").data)),
    footer := some today,
    items := alphabetLoop M [48, 36, 24, 18, 14, 11, 9] (PAGE_HEIGHT - MARGIN - 400) }

/-- The digit line of the numerals page. -/
def numerals : Str := ("0123456789").data

/-- The punctuation line of the numerals page (literal braces written as
hex escapes). -/
def punctuation : Str := (".,;:!?\"'`-–—()[]\x7b\x7d/@#$%^&*+=<>").data

/-- Digit section loop: each size draws the digit line whole, with no width
check, advancing 1.5 em; returns the items and the final cursor. -/
def digitLoop : List ℤ → ℤ → List Item × ℤ
  | [], y => ([], y)
  | size :: rest, y =>
    let (its, yEnd) := digitLoop rest (y - size * 15)
    (Item.text numerals size :: its, yEnd)

/-- Punctuation section loop: each size draws the punctuation line with the
fit-or-split width check (the split adds a 1.3 em advance), advances 1.5 em,
and stops once the cursor would pass MARGIN + 30 pt. -/
def punctLoop (M : Measure) : List ℤ → ℤ → List Item
  | [], _ => []
  | size :: rest, y =>
    let r := fitOrSplit M punctuation size (PAGE_WIDTH - 2 * MARGIN)
    let y1 := match r with
      | FitResult.single _ => y
      | FitResult.split _ _ => y - size * 13
    let y2 := y1 - size * 15
    renderFit r size ++ (if y2 < MARGIN + 300 then [] else punctLoop M rest y2)

/-- Numerals and punctuation page (numerals_page in the source).  The digit
section uses sizes[:4] of the six-element ladder, the punctuation section
uses sizes[2:]. -/
def numerals_page (M : Measure) (info : FontInfo) (today : Str) : Page :=
  let sizes : List ℤ := [72, 48, 36, 24, 18, 14]
  let y0 := PAGE_HEIGHT - MARGIN - 500
  let y1 := y0 - 200
  let (digitItems, y2) := digitLoop (sizes.take 4) y1
  let y3 := y2 - 200
  let y4 := y3 - 200
  { header := some (draw_header info (("Numerals & Punctuation").data)),
    footer := some today,
    items :=
      Item.label (("NUMERALS").data) :: digitItems
        ++ Item.label (("PUNCTUATION").data) :: punctLoop M (sizes.drop 2) y4 }

/-- Waterfall sample word. -/
def waterfall_sample : Str := ("Hamburgefontsiv").data

/-- Waterfall loop: each size draws a point-size label and the sample word,
advancing 1.4 em; stops once the cursor would pass MARGIN + 20 pt. -/
def waterfallLoop : List ℤ → ℤ → List Item
  | [], _ => []
  | size :: rest, y =>
    let y1 := y - size * 14
    Item.label ((Int.repr size).data ++ ("pt").data) :: Item.text waterfall_sample size
      :: (if y1 < MARGIN + 200 then [] else waterfallLoop rest y1)

/-- Size waterfall page (waterfall_page in the source). -/
def waterfall_page (info : FontInfo) (today : Str) : Page :=
  { header := some (draw_header info (("Size Waterfall").data)),
    footer := some today,
    items :=
      waterfallLoop [72, 60, 48, 36, 30, 24, 20, 18, 16, 14, 12, 11, 10, 9, 8, 7, 6]
        (PAGE_HEIGHT - MARGIN - 400) }

/-- Probe line of the spacing page for a letter c:
c + c.join(list(lowercase)) + c. -/
def spacingLine (c : Char) : Str := c :: (List.intersperse c lowercase ++ [c])

/-- Spacing page loop over the lowercase letters at size 14 with line height
1.4 em.  A too-wide line is truncated by the 2-characters-at-a-time loop with
floor 10; when the cursor would pass MARGIN + 30 pt a continuation page is
opened with its own header and footer and the cursor resets. -/
def spacingLoop (M : Measure) (info : FontInfo) (today : Str) :
    List Char → ℤ → Page → List Page → List Page
  | [], _, cur, done => done ++ [cur]
  | c :: cs, y, cur, done =>
    let line0 := spacingLine c
    let line :=
      if M line0 14 > PAGE_WIDTH - 2 * MARGIN then
        fitOrTruncate M line0 14 (PAGE_WIDTH - 2 * MARGIN) 10
      else line0
    let cur1 : Page := { cur with items := cur.items ++ [Item.text line 14] }
    let y1 := y - 196
    if y1 < MARGIN + 300 then
      spacingLoop M info today cs (PAGE_HEIGHT - MARGIN - 400)
        { header := some (draw_header info (("Spacing Proof (continued)").data)),
          footer := some today, items := [] }
        (done ++ [cur1])
    else
      spacingLoop M info today cs y1 cur1 done

/-- Spacing proof page or pages (spacing_page in the source). -/
def spacing_page (M : Measure) (info : FontInfo) (today : Str) : List Page :=
  spacingLoop M info today lowercase (PAGE_HEIGHT - MARGIN - 400)
    { header := some (draw_header info (("Spacing Proof").data)),
      footer := some today, items := [] }
    []

/-- Sample paragraph of the paragraph page. -/
def sample_text : Str :=
  ("The quick brown fox jumps over the lazy dog. Pack my box with five dozen liquor jugs. How vexingly quick daft zebras jump! The five boxing wizards jump quickly. Sphinx of black quartz, judge my vow. Two driven jocks help fax my big quiz. The jay, pig, fox, zebra, and my wolves quack!").data

/-- Paragraph loop: each size draws a leading label and a text box of height
6 em, advancing by the box height plus 30 pt after a 14 pt label advance;
stops once the cursor would pass MARGIN + 80 pt.  The leading in the label is
int(size * 1.4), exact here because truncating division on these integer
deci-point values matches Python int() on the positive floats involved. -/
def paragraphLoop : List ℤ → ℤ → List Item
  | [], _ => []
  | size :: rest, y =>
    let y1 := y - 140
    let y2 := y1 - (size * 60 + 300)
    Item.label
        ((Int.repr size).data ++ ("pt / ").data
          ++ (Int.repr (size * 14 / 10)).data ++ ("pt leading").data)
      :: Item.para sample_text size
      :: (if y2 < MARGIN + 800 then [] else paragraphLoop rest y2)

/-- Paragraph setting page (paragraph_page in the source). -/
def paragraph_page (info : FontInfo) (today : Str) : Page :=
  { header := some (draw_header info (("Paragraph Setting").data)),
    footer := some today,
    items := paragraphLoop [14, 12, 10, 9, 8] (PAGE_HEIGHT - MARGIN - 400) }

/-- The fixed kerning-pair lines. -/
def kern_pairs : List Str :=
  [ ("AV AW AT AY Av Aw Ay AC AG AO AQ AU").data,
    ("FA TA PA VA WA YA LT LV LW LY").data,
    ("To Tr Tu Tw Ty Te Ta Tc Ts").data,
    ("Vo Va Ve Vu Vy Wo Wa We Wy").data,
    ("Ya Ye Yo Yu \"A\" 'A' \"T\" 'T' \"V\"").data,
    ("ff fi fl ffi ffl ft").data,
    ("oo oc oe og oq op od ob").data,
    ("rv ry rw ra re ro rc").data ]

/-- Kerning loop: each pair line at size 24, advancing 1.6 em; stops once the
cursor would pass MARGIN + 30 pt. -/
def kerningLoop : List Str → ℤ → List Item
  | [], _ => []
  | p :: rest, y =>
    let y1 := y - 24 * 16
    Item.text p 24 :: (if y1 < MARGIN + 300 then [] else kerningLoop rest y1)

/-- Kerning pairs page (kerning_page in the source). -/
def kerning_page (info : FontInfo) (today : Str) : Page :=
  { header := some (draw_header info (("Kerning Pairs").data)),
    footer := some today,
    items := kerningLoop kern_pairs (PAGE_HEIGHT - MARGIN - 500) }

/-- Uppercase hexadecimal digit character for a value below 16. -/
def hexChar (n : ℕ) : Char :=
  if n < 10 then Char.ofNat (48 + n) else Char.ofNat (55 + n)

/-- Uppercase hexadecimal digits of n, most significant first, fuel-indexed;
empty for n = 0. -/
def hexDigits : ℕ → ℕ → Str
  | 0, _ => []
  | _, 0 => []
  | fuel + 1, n => hexDigits fuel (n / 16) ++ [hexChar (n % 16)]

/-- The Python format \x7bcp:04X\x7d: uppercase hexadecimal, zero-padded on
the left to at least four digits. -/
def hex04 (cp : ℕ) : Str :=
  let ds := if cp = 0 then [('0' : Char)] else hexDigits cp cp
  List.replicate (4 - ds.length) '0' ++ ds

/-- Cell size of the 12-column glyph grid: (PAGE_WIDTH - 2 * MARGIN) / 12,
exactly 45 pt. -/
def cell_size : ℤ := (PAGE_WIDTH - 2 * MARGIN) / 12

/-- Title of a glyph-grid continuation page for a page number. -/
def glyphContTitle (n : ℕ) : Str :=
  ("Character Set (page ").data ++ (Nat.repr n).data ++ (")").data

/-- A freshly opened glyph-grid page: header with the given title, footer,
no cells yet. -/
def freshGlyphPage (info : FontInfo) (today : Str) (title : Str) : Page :=
  { header := some (draw_header info title), footer := some today, items := [] }

/-- Layout state of the glyph grid walk: the cursor, the running page number,
the page being filled and the finished pages. -/
structure GlyphState where
  x : ℤ
  y : ℤ
  page_num : ℕ
  cur : Page
  done : List Page

/-- One iteration of the glyph grid loop: draw the cell for a codepoint at the
cursor, advance one column; wrap to the next row when the next cell would
cross the right margin, and open a continuation page (bumping the page
number) when the next row would cross the bottom margin. -/
def glyphStep (info : FontInfo) (today : Str) (s : GlyphState) (cp : ℕ) : GlyphState :=
  let withCell : Page := { s.cur with items := s.cur.items ++ [Item.cell cp (hex04 cp)] }
  let x1 := s.x + cell_size
  if x1 + cell_size > PAGE_WIDTH - MARGIN then
    let y1 := s.y - cell_size
    if y1 - cell_size < MARGIN then
      { x := MARGIN, y := PAGE_HEIGHT - MARGIN - 500, page_num := s.page_num + 1,
        cur := freshGlyphPage info today (glyphContTitle (s.page_num + 1)),
        done := s.done ++ [withCell] }
    else
      { s with x := MARGIN, y := y1, cur := withCell }
  else
    { s with x := x1, cur := withCell }

/-- Character set pages (glyph_set_page in the source): the codepoints of the
character map in sorted order walked through the grid; returns the rendered
pages and the final page number. -/
def glyph_set_page (info : FontInfo) (today : Str) (cmap : List ℕ) (start_page : ℕ) :
    List Page × ℕ :=
  let codepoints := List.insertionSort (fun a b => a ≤ b) cmap
  let init : GlyphState :=
    { x := MARGIN, y := PAGE_HEIGHT - MARGIN - 500, page_num := start_page,
      cur := freshGlyphPage info today (("Character Set").data), done := [] }
  let s := codepoints.foldl (glyphStep info today) init
  (s.done ++ [s.cur], s.page_num)

/-- The in-range collection of the Arabic page: characters for the codepoints
of range(0x0600, 0x06FF) that are present in the character map, in codepoint
order.  Note the Python range is half open: 0x06FF itself is excluded. -/
def arabic_chars (cmap : List ℕ) : Str :=
  ((List.range' 0x600 255).filter (fun cp => cp ∈ cmap)).map (fun cp => Char.ofNat cp)

/-- The two sample strings of the Arabic page: the first 28 collected
characters, and characters 28 to 55 when more than 28 were collected
(otherwise the empty string). -/
def arabicSamples (cmap : List ℕ) : List Str :=
  [ (arabic_chars cmap).take 28,
    if (arabic_chars cmap).length > 28 then ((arabic_chars cmap).drop 28).take 28 else [] ]

/-- Arabic page body loop: each size draws every nonempty sample, advancing
1.5 em per sample plus 20 pt per size; stops once the cursor would pass
MARGIN + 50 pt. -/
def arabicLoop (samples : List Str) : List ℤ → ℤ → List Item
  | [], _ => []
  | size :: rest, y =>
    let step := fun (acc : List Item × ℤ) (sample : Str) =>
      if sample ≠ [] then (acc.1 ++ [Item.text sample size], acc.2 - size * 15) else acc
    let (its, y1) := samples.foldl step ([], y)
    let y2 := y1 - 200
    its ++ (if y2 < MARGIN + 500 then [] else arabicLoop samples rest y2)

/-- Arabic page (arabic_page in the source): no page at all when no codepoint
of the half-open range is present, otherwise one page of samples. -/
def arabic_page (info : FontInfo) (today : Str) (cmap : List ℕ) :
    List Page :=
  if arabic_chars cmap = [] then []
  else
    [ { header := some (draw_header info (("Arabic").data)),
        footer := some today,
        items := arabicLoop (arabicSamples cmap) [48, 36, 24, 18] (PAGE_HEIGHT - MARGIN - 500) } ]

/-- The full document in template order (the page-building part of
generate_proof). -/
def proofDocument (M : Measure) (info : FontInfo) (cmap : List ℕ) (now today : Str) :
    List Page :=
  [title_page info now]
    ++ [alphabet_page M info today]
    ++ [numerals_page M info today]
    ++ [waterfall_page info today]
    ++ spacing_page M info today
    ++ [paragraph_page info today]
    ++ [kerning_page info today]
    ++ (glyph_set_page info today cmap 1).1
    ++ arabic_page info today cmap

/-- Result of generate_proof: the source returns False after the up-front
existence check fails (no document written), True after a written document. -/
inductive ProofResult where
  | fontNotFound
  | ok (doc : List Page)
deriving DecidableEq

/-- generate_proof: resolve the paths, fail before any font parsing when the
font path does not exist, otherwise build and write the document.  The
existence of the resolved input path is the boolean argument; the font data
arguments stand for what parsing would return and are untouched on the
failure path. -/
def generate_proof (fontExists : Bool) (M : Measure) (info : FontInfo) (cmap : List ℕ)
    (now today : Str) : ProofResult :=
  if fontExists then ProofResult.ok (proofDocument M info cmap now today)
  else ProofResult.fontNotFound

/-- The output file written by a run: none on the failure path (saveImage is
never reached), the document on success. -/
def outputWritten : ProofResult → Option (List Page)
  | ProofResult.fontNotFound => none
  | ProofResult.ok doc => some doc

/-- The boolean the source returns from generate_proof. -/
def success : ProofResult → Bool
  | ProofResult.fontNotFound => false
  | ProofResult.ok _ => true

/-- The process exit code: sys.exit(0 if success else 1). -/
def exit_code (r : ProofResult) : ℕ := if success r then 0 else 1

/-- Total page count reported for a run; 0 when no document was produced. -/
def page_count : ProofResult → ℕ
  | ProofResult.fontNotFound => 0
  | ProofResult.ok doc => doc.length

/-- All body items of a list of pages, in page order then drawing order. -/
def docCells (ps : List Page) : List Item :=
  (ps.map Page.items).flatten

/-- The Arabic Unicode block U+0600 to U+06FF inclusive, the designated
supplementary script block named by the specification (256 codepoints). -/
def arabicBlockSpec : List ℕ := List.range' 0x600 256

/-- A concrete font metadata snapshot used for evaluations. -/
def info0 : FontInfo :=
  { family := ("Virtua Grotesk").data, style := ("Regular").data,
    version := ("1.0").data, designer := [], glyph_count := 26, upm := 1000 }

/-- A measure under which every string has width zero: nothing is ever too wide. -/
def Mzero : Measure := fun _ _ => 0

/-- A measure under which every string measures 10000 deci-points: everything
exceeds the 5400 deci-point usable width. -/
def Mwide : Measure := fun _ _ => 10000

/-- A measure under which exactly the digit line is too wide. -/
def Mdig : Measure := fun t _ => if t = numerals then 10000 else 0

/-- A measure that always returns exactly the usable line width 5400, the
boundary case of the fit check. -/
def Mflat : Measure := fun _ _ => 5400

/-- A page carries the standard chrome: a header drawn by draw_header for this
font (family plus style on the left, some page title on the right) and a
footer carrying the generation date. -/
def pageHasChrome (info : FontInfo) (today : Str) (p : Page) : Prop :=
  (∃ t, p.header = some (draw_header info t)) ∧ p.footer = some today

/-- Geometry invariant of the glyph grid walk after n cells, starting from
page 1: the page holds 12 columns of 45 pt cells and 14 rows, hence 168
cells; the cursor sits at column (n mod 168) mod 12 and row (n mod 168) / 12
of the current page, n / 168 pages are finished, the current page holds
n mod 168 cells, and the current page carries the expected title (the plain
title on page 1, the continuation title after). -/
def glyphGeomInv (info : FontInfo) (today : Str) (n : ℕ) (s : GlyphState) : Prop :=
  s.x = 360 + 450 * (((n % 168) % 12 : ℕ) : ℤ)
  ∧ s.y = 7060 - 450 * (((n % 168) / 12 : ℕ) : ℤ)
  ∧ s.page_num = 1 + n / 168
  ∧ s.done.length = n / 168
  ∧ s.cur.items.length = n % 168
  ∧ s.cur.header = some (draw_header info
      (if n / 168 = 0 then ("Character Set").data else glyphContTitle (1 + n / 168)))
  ∧ s.cur.footer = some today

/-- Claim C2: with a font path that does not resolve to an existing file,
generate_proof fails with the font-not-found result before any font parsing
is attempted (the result is the same whatever font data parsing would have
produced), writes no output file, and the process exits with code 1; a
successful run exits with code 0. -/
theorem C2_font_not_found (M M2 : Measure) (info info2 : FontInfo)
    (cmap cmap2 : List ℕ) (now today now2 today2 : Str) :
    generate_proof false M info cmap now today = ProofResult.fontNotFound
    ∧ outputWritten (generate_proof false M info cmap now today) = none
    ∧ exit_code (generate_proof false M info cmap now today) = 1
    ∧ generate_proof false M info cmap now today
        = generate_proof false M2 info2 cmap2 now2 today2
    ∧ exit_code (generate_proof true M info cmap now today) = 0 :=
  ⟨rfl, rfl, rfl, rfl, rfl⟩

/-- Claim C4: when the measured width exceeds the budget, the fit decision is
a split at the character-count midpoint: the first half has length exactly
len // 2, the second half is the remaining suffix, and the two halves
reassemble the input (no recursive re-splitting touches either half). -/
theorem C4_split_midpoint (M : Measure) (t : Str) (size maxWidth : ℤ)
    (h : M t size > maxWidth) :
    fitOrSplit M t size maxWidth
      = FitResult.split (t.take (t.length / 2)) (t.drop (t.length / 2))
    ∧ (t.take (t.length / 2)).length = t.length / 2
    ∧ t.take (t.length / 2) ++ t.drop (t.length / 2) = t := by
  refine ⟨?_, ?_, List.take_append_drop _ _⟩
  · unfold fitOrSplit
    rw [if_pos h]
  · rw [List.length_take]
    exact Nat.min_eq_left (Nat.div_le_self _ _)

/-- Witness for C4 at a concrete eleven-character input. -/
theorem C4_witness :
    fitOrSplit Mwide (("ABCDEFGHIJK").data) 48 5400
      = FitResult.split (("ABCDE").data) (("FGHIJK").data)
    ∧ ((("ABCDE").data) : Str).length = 5 := by
  have h := C4_split_midpoint Mwide (("ABCDEFGHIJK").data) 48 5400 (by decide)
  exact ⟨h.1.trans (by decide), by decide⟩

/-- Claim C5: when the measured width is at most the budget, including exact
equality, the fit decision keeps the line whole and unchanged. -/
theorem C5_single_when_fits (M : Measure) (t : Str) (size maxWidth : ℤ)
    (h : M t size ≤ maxWidth) :
    fitOrSplit M t size maxWidth = FitResult.single t := by
  unfold fitOrSplit
  rw [if_neg (not_lt.2 h)]

/-- Witness for C5 at the boundary where the measured width equals the budget
exactly. -/
theorem C5_witness :
    fitOrSplit Mflat uppercase 14 (PAGE_WIDTH - 2 * MARGIN) = FitResult.single uppercase :=
  C5_single_when_fits Mflat uppercase 14 (PAGE_WIDTH - 2 * MARGIN) (by decide)

/-- The dropLast of a list is one of its prefixes. -/
theorem dropLast_isPrefixOf {α : Type} (l : List α) : l.dropLast <+: l := by
  rcases eq_or_ne l [] with rfl | h
  · simp
  · exact ⟨[l.getLast h], List.dropLast_append_getLast h⟩

/-- Lower bound kept by the truncation loop: the length never drops below the
initial length or one below the floor, whichever is smaller. -/
theorem truncLoop_length_ge (M : Measure) (size maxWidth : ℤ) (minLength : ℕ) :
    ∀ (fuel : ℕ) (t : Str),
      min t.length (minLength - 1) ≤ (truncLoop M size maxWidth minLength fuel t).length
  | 0, t => by
    simp only [truncLoop]
    exact Nat.min_le_left _ _
  | fuel + 1, t => by
    unfold truncLoop
    split
    case isTrue h =>
      have ih := truncLoop_length_ge M size maxWidth minLength fuel (t.dropLast.dropLast)
      simp only [List.length_dropLast] at ih
      omega
    case isFalse h =>
      exact Nat.min_le_left _ _

/-- The truncation loop only ever removes trailing characters. -/
theorem truncLoop_takes_front (M : Measure) (size maxWidth : ℤ) (minLength : ℕ) :
    ∀ (fuel : ℕ) (t : Str), (truncLoop M size maxWidth minLength fuel t) <+: t
  | 0, t => by
    simp [truncLoop]
  | fuel + 1, t => by
    unfold truncLoop
    split
    case isTrue h =>
      exact (truncLoop_takes_front M size maxWidth minLength fuel _).trans
        ((dropLast_isPrefixOf _).trans (dropLast_isPrefixOf _))
    case isFalse h =>
      exact List.prefix_refl _

/-- Exit condition of the truncation loop, reached whenever the fuel covers
the initial length: on return the line fits or its length is at most the
floor. -/
theorem truncLoop_exit (M : Measure) (size maxWidth : ℤ) (minLength : ℕ) :
    ∀ (fuel : ℕ) (t : Str), t.length ≤ fuel →
      ¬ (M (truncLoop M size maxWidth minLength fuel t) size > maxWidth
          ∧ (truncLoop M size maxWidth minLength fuel t).length > minLength)
  | 0, t, hf => by
    simp only [truncLoop]
    rintro ⟨-, h2⟩
    omega
  | fuel + 1, t, hf => by
    unfold truncLoop
    split
    case isTrue h =>
      refine truncLoop_exit M size maxWidth minLength fuel _ ?_
      simp only [List.length_dropLast]
      omega
    case isFalse h =>
      exact h

/-- Claim C3, amended: the truncation loop removes exactly two trailing
characters per iteration while the width exceeds the budget and the length
exceeds the floor; because two characters go at a time, an odd overshoot can
finish one character below the floor, so the result length is bounded below
by min (input length) (minLength - 1), the result is a prefix of the input,
and on exit the line fits the budget or its length is at most minLength. -/
theorem C3_truncate_floor (M : Measure) (t : Str) (size maxWidth : ℤ) (minLength : ℕ) :
    min t.length (minLength - 1) ≤ (fitOrTruncate M t size maxWidth minLength).length
    ∧ (fitOrTruncate M t size maxWidth minLength) <+: t
    ∧ (M (fitOrTruncate M t size maxWidth minLength) size ≤ maxWidth
        ∨ (fitOrTruncate M t size maxWidth minLength).length ≤ minLength) := by
  refine ⟨truncLoop_length_ge M size maxWidth minLength t.length t,
    truncLoop_takes_front M size maxWidth minLength t.length t, ?_⟩
  have h := truncLoop_exit M size maxWidth minLength t.length t le_rfl
  rcases not_and_or.1 h with h1 | h2
  · exact Or.inl (not_lt.1 h1)
  · exact Or.inr (not_lt.1 h2)

/-- Counterexample to claim C3 as stated: the actual spacing probe line has 53
characters, and under a measure for which every prefix is still too wide the
loop runs 11 to 9, returning a string of length 9, strictly shorter than the
floor 10 although the input was longer than the floor. -/
theorem C3_counterexample :
    (spacingLine 'a').length = 53
    ∧ (fitOrTruncate Mwide (spacingLine 'a') 14 (PAGE_WIDTH - 2 * MARGIN) 10).length = 9 := by
  decide

/-- Every page the spacing loop ever emits keeps the chrome it was opened
with, and continuation pages are opened with fresh chrome. -/
theorem spacingLoop_chrome (M : Measure) (info : FontInfo) (today : Str) :
    ∀ (cs : List Char) (y : ℤ) (cur : Page) (done : List Page),
      pageHasChrome info today cur →
      (∀ p ∈ done, pageHasChrome info today p) →
      ∀ p ∈ spacingLoop M info today cs y cur done, pageHasChrome info today p
  | [], y, cur, done, hcur, hdone => by
    intro p hp
    rcases List.mem_append.1 hp with h | h
    · exact hdone p h
    · rcases List.mem_singleton.1 h with rfl
      exact hcur
  | c :: cs, y, cur, done, hcur, hdone => by
    simp only [spacingLoop]
    split
    · refine spacingLoop_chrome M info today cs _ _ _ ⟨⟨_, rfl⟩, rfl⟩ ?_
      intro p hp
      rcases List.mem_append.1 hp with h | h
      · exact hdone p h
      · rcases List.mem_singleton.1 h with rfl
        exact hcur
    · exact spacingLoop_chrome M info today cs _ _ _ hcur hdone

/-- The spacing loop only ever adds pages: at least the pages already finished
plus the current one come out. -/
theorem spacingLoop_length (M : Measure) (info : FontInfo) (today : Str) :
    ∀ (cs : List Char) (y : ℤ) (cur : Page) (done : List Page),
      done.length + 1 ≤ (spacingLoop M info today cs y cur done).length
  | [], y, cur, done => by
    simp [spacingLoop]
  | c :: cs, y, cur, done => by
    simp only [spacingLoop]
    split
    · refine le_trans ?_ (spacingLoop_length M info today cs _ _ _)
      simp only [List.length_append, List.length_cons, List.length_nil]
      omega
    · exact spacingLoop_length M info today cs _ _ done

/-- One glyph grid step keeps chrome on the page being filled and on every
finished page. -/
theorem glyphStep_chrome (info : FontInfo) (today : Str) (s : GlyphState) (cp : ℕ)
    (hcur : pageHasChrome info today s.cur)
    (hdone : ∀ p ∈ s.done, pageHasChrome info today p) :
    pageHasChrome info today (glyphStep info today s cp).cur
    ∧ ∀ p ∈ (glyphStep info today s cp).done, pageHasChrome info today p := by
  have hwith : pageHasChrome info today
      { s.cur with items := s.cur.items ++ [Item.cell cp (hex04 cp)] } := hcur
  simp only [glyphStep]
  split
  · split
    · refine ⟨⟨⟨_, rfl⟩, rfl⟩, ?_⟩
      intro p hp
      rcases List.mem_append.1 hp with h | h
      · exact hdone p h
      · rcases List.mem_singleton.1 h with rfl
        exact hwith
    · exact ⟨hwith, hdone⟩
  · exact ⟨hwith, hdone⟩

/-- The glyph grid fold keeps chrome on the page being filled and on every
finished page. -/
theorem glyphFold_chrome (info : FontInfo) (today : Str) :
    ∀ (l : List ℕ) (s : GlyphState),
      pageHasChrome info today s.cur →
      (∀ p ∈ s.done, pageHasChrome info today p) →
      pageHasChrome info today (l.foldl (glyphStep info today) s).cur
      ∧ ∀ p ∈ (l.foldl (glyphStep info today) s).done, pageHasChrome info today p
  | [], s, hcur, hdone => ⟨hcur, hdone⟩
  | cp :: l, s, hcur, hdone => by
    simp only [List.foldl_cons]
    have h := glyphStep_chrome info today s cp hcur hdone
    exact glyphFold_chrome info today l (glyphStep info today s cp) h.1 h.2

/-- Claim C9: the document opens with the title page, which carries neither
header nor footer; every later page, the mid-template continuation pages of
the spacing proof and of the character set included, carries a header drawn
by draw_header (font family plus style, and its page title) and a footer
carrying the generation date. -/
theorem C9_chrome_invariant (M : Measure) (info : FontInfo) (cmap : List ℕ)
    (now today : Str) :
    (proofDocument M info cmap now today).head? = some (title_page info now)
    ∧ (title_page info now).header = none
    ∧ (title_page info now).footer = none
    ∧ ∀ p ∈ (proofDocument M info cmap now today).tail, pageHasChrome info today p := by
  refine ⟨rfl, rfl, rfl, ?_⟩
  intro p hp
  simp only [proofDocument, List.append_assoc, List.cons_append, List.singleton_append,
    List.nil_append, List.tail_cons] at hp
  rcases List.mem_cons.1 hp with rfl | hp
  · exact ⟨⟨_, rfl⟩, rfl⟩
  rcases List.mem_cons.1 hp with rfl | hp
  · exact ⟨⟨_, rfl⟩, rfl⟩
  rcases List.mem_cons.1 hp with rfl | hp
  · exact ⟨⟨_, rfl⟩, rfl⟩
  rcases List.mem_append.1 hp with hsp | hp
  · exact spacingLoop_chrome M info today lowercase _ _ _ ⟨⟨_, rfl⟩, rfl⟩
      (by intro q hq; cases hq) p hsp
  rcases List.mem_cons.1 hp with rfl | hp
  · exact ⟨⟨_, rfl⟩, rfl⟩
  rcases List.mem_cons.1 hp with rfl | hp
  · exact ⟨⟨_, rfl⟩, rfl⟩
  rcases List.mem_append.1 hp with hg | ha
  · have h := glyphFold_chrome info today
      (List.insertionSort (fun a b => a ≤ b) cmap)
      { x := MARGIN, y := PAGE_HEIGHT - MARGIN - 500, page_num := 1,
        cur := freshGlyphPage info today (("Character Set").data), done := [] }
      ⟨⟨_, rfl⟩, rfl⟩ (by intro q hq; cases hq)
    rcases List.mem_append.1 hg with h1 | h1
    · exact h.2 p h1
    · rcases List.mem_singleton.1 h1 with rfl
      exact h.1
  · unfold arabic_page at ha
    split at ha
    · cases ha
    · rcases List.mem_singleton.1 ha with rfl
      exact ⟨⟨_, rfl⟩, rfl⟩

/-- Witness for C9: on a concrete run the second page of the document (the
alphabet page) carries chrome, via the claim theorem applied at a membership
discharged by evaluation. -/
theorem C9_witness :
    pageHasChrome info0 ([]) (alphabet_page Mzero info0 ([])) := by
  have h := (C9_chrome_invariant Mzero info0 ([65]) ([]) ([])).2.2.2
  exact h (alphabet_page Mzero info0 ([])) (by decide)

/-- Claim C1, amended: every successful run produces at least 8 pages: the
title, alphabet, numerals, waterfall, paragraph and kerning templates give
exactly one page each, the spacing proof and the character set give at least
one page each, and the script sample may give zero. -/
theorem C1_page_count_lower_bound (M : Measure) (info : FontInfo) (cmap : List ℕ)
    (now today : Str) :
    8 ≤ page_count (generate_proof true M info cmap now today) := by
  have hs : 1 ≤ (spacing_page M info today).length := by
    have h := spacingLoop_length M info today lowercase (PAGE_HEIGHT - MARGIN - 400)
      { header := some (draw_header info (("Spacing Proof").data)),
        footer := some today, items := [] } []
    simpa [spacing_page] using h
  have hg : 1 ≤ (glyph_set_page info today cmap 1).1.length := by
    simp only [glyph_set_page, List.length_append, List.length_singleton]
    omega
  show 8 ≤ (proofDocument M info cmap now today).length
  simp only [proofDocument, List.length_append, List.length_singleton]
  omega

/-- Counterexample to claim C1 as stated: a font whose character map holds the
single codepoint 65 and contains no Arabic produces exactly 8 pages, below
the claimed lower bound of 9. -/
theorem C1_counterexample :
    page_count (generate_proof true Mzero info0 [65] ([]) ([])) = 8 ∧ (8 : ℕ) < 9 := by
  constructor
  · decide
  · decide

/-- Counterexample to claim C7 as stated: the character map holding the 30
codepoints 0x6E2 to 0x6FF lies entirely inside the designated Unicode block
(U+0600 to U+06FF), yet the template collects only 29 of them, because the
source range excludes U+06FF, so the one emitted page has a second sample
with 1 character where the claim promises the remaining 2. -/
theorem C7_counterexample :
    ((List.range' 0x6E2 30).filter (fun cp => cp ∈ arabicBlockSpec)).length = 30
    ∧ (arabic_page info0 ([]) (List.range' 0x6E2 30)).length = 1
    ∧ ((arabicSamples (List.range' 0x6E2 30)).getD 1 ([])).length = 1 := by
  decide

/-- Claim C7, amended: with the designated range read as the half-open source
range U+0600 to U+06FE, a character map with no codepoint in range gives zero
pages, and one with exactly 30 collected in-range codepoints gives one page
whose first sample is the first 28 collected characters and whose second
sample is the remaining 2. -/
theorem C7_arabic_samples (info : FontInfo) (today : Str) (cmap : List ℕ) :
    (arabic_chars cmap = [] → arabic_page info today cmap = [])
    ∧ ((arabic_chars cmap).length = 30 →
        (arabic_page info today cmap).length = 1
        ∧ arabicSamples cmap = [(arabic_chars cmap).take 28, (arabic_chars cmap).drop 28]
        ∧ ((arabic_chars cmap).drop 28).length = 2
        ∧ (arabic_chars cmap).take 28 ++ (arabic_chars cmap).drop 28 = arabic_chars cmap) := by
  constructor
  · intro h
    unfold arabic_page
    rw [if_pos h]
  · intro h30
    have hne : arabic_chars cmap ≠ [] := by
      intro h
      rw [h] at h30
      simp at h30
    have hd : ((arabic_chars cmap).drop 28).length = 2 := by
      rw [List.length_drop, h30]
    refine ⟨?_, ?_, hd, List.take_append_drop _ _⟩
    · unfold arabic_page
      rw [if_neg hne]
      rfl
    · unfold arabicSamples
      rw [if_pos (by omega : (arabic_chars cmap).length > 28),
        (List.take_eq_self_iff _).2 (by omega : ((arabic_chars cmap).drop 28).length ≤ 28)]

/-- Witness for C7 amended: the empty map gives zero pages, and the thirty
in-range codepoints 0x6D0 to 0x6ED give one page with a two-character second
sample. -/
theorem C7_witness :
    arabic_page info0 ([]) ([]) = []
    ∧ (arabic_page info0 ([]) (List.range' 0x6D0 30)).length = 1
    ∧ ((arabic_chars (List.range' 0x6D0 30)).drop 28).length = 2 := by
  have h1 := (C7_arabic_samples info0 ([]) ([])).1 (by decide)
  have h2 := (C7_arabic_samples info0 ([]) (List.range' 0x6D0 30)).2 (by decide)
  exact ⟨h1, h2.1, h2.2.2.1⟩

/-- Counterexample to claim C8 as stated: under a measure for which the digit
line exceeds the usable width, the digit line is still rendered whole at 72
points: no fit-or-split is applied to the digit section. -/
theorem C8_counterexample :
    Mdig numerals 72 > PAGE_WIDTH - 2 * MARGIN
    ∧ Item.text numerals 72 ∈ (numerals_page Mdig info0 ([])).items := by
  decide

/-- Claim C8, amended: the digit line renders at exactly the sizes 72, 48, 36,
24 (the first four of the six-element ladder), always whole and without any
width check; the punctuation line renders at exactly the sizes 36, 24, 18, 14
(the last four of the same ladder), each line put through fit-or-split. -/
theorem C8_numerals_sizes (M : Measure) (info : FontInfo) (today : Str) :
    (numerals_page M info today).items
      = Item.label (("NUMERALS").data)
          :: Item.text numerals 72 :: Item.text numerals 48
          :: Item.text numerals 36 :: Item.text numerals 24
          :: Item.label (("PUNCTUATION").data)
          :: (renderFit (fitOrSplit M punctuation 36 (PAGE_WIDTH - 2 * MARGIN)) 36
              ++ (renderFit (fitOrSplit M punctuation 24 (PAGE_WIDTH - 2 * MARGIN)) 24
                ++ (renderFit (fitOrSplit M punctuation 18 (PAGE_WIDTH - 2 * MARGIN)) 18
                  ++ renderFit (fitOrSplit M punctuation 14 (PAGE_WIDTH - 2 * MARGIN)) 14))) := by
  simp only [numerals_page, digitLoop, punctLoop, renderFit, PAGE_WIDTH, PAGE_HEIGHT, MARGIN]
  rcases h36 : fitOrSplit M punctuation 36 5400 with t36 | ⟨a36, b36⟩ <;>
    rcases h24 : fitOrSplit M punctuation 24 5400 with t24 | ⟨a24, b24⟩ <;>
    rcases h18 : fitOrSplit M punctuation 18 5400 with t18 | ⟨a18, b18⟩ <;>
    rcases h14 : fitOrSplit M punctuation 14 5400 with t14 | ⟨a14, b14⟩ <;>
    simp [h36, h24, h18, h14]

/-- One glyph grid step appends exactly one cell to the body items of the
pages seen so far. -/
theorem glyphStep_emitted (info : FontInfo) (today : Str) (s : GlyphState) (cp : ℕ) :
    docCells ((glyphStep info today s cp).done ++ [(glyphStep info today s cp).cur])
      = docCells (s.done ++ [s.cur]) ++ [Item.cell cp (hex04 cp)] := by
  simp only [glyphStep]
  split
  · split
    · simp [docCells, freshGlyphPage]
    · simp [docCells]
  · simp [docCells]

/-- The glyph grid fold emits exactly one cell per codepoint, in list order. -/
theorem glyphFold_emitted (info : FontInfo) (today : Str) :
    ∀ (l : List ℕ) (s : GlyphState),
      docCells ((l.foldl (glyphStep info today) s).done
          ++ [(l.foldl (glyphStep info today) s).cur])
        = docCells (s.done ++ [s.cur]) ++ l.map (fun cp => Item.cell cp (hex04 cp))
  | [], s => by simp
  | cp :: l, s => by
    simp only [List.foldl_cons, List.map_cons]
    rw [glyphFold_emitted info today l (glyphStep info today s cp), glyphStep_emitted]
    simp

/-- The cells of the character set pages are the sorted codepoints in order. -/
theorem glyph_set_cells (info : FontInfo) (today : Str) (cmap : List ℕ) (start_page : ℕ) :
    docCells (glyph_set_page info today cmap start_page).1
      = (List.insertionSort (fun a b => a ≤ b) cmap).map
          (fun cp => Item.cell cp (hex04 cp)) := by
  simp only [glyph_set_page]
  rw [glyphFold_emitted]
  simp [docCells, freshGlyphPage]

set_option maxRecDepth 8000 in
/-- Claim C6: for every character map snapshot the character set template
enumerates exactly the codepoints of the snapshot, strictly increasing, no
duplicates, no omissions; in particular the 26-codepoint map 0x41 to 0x5A
gives exactly one page with 26 cells in ascending order, each labeled with
its four-digit uppercase hexadecimal codepoint. -/
theorem C6_glyph_enumeration :
    (∀ (info : FontInfo) (today : Str) (cmap : List ℕ) (start_page : ℕ), cmap.Nodup →
        docCells (glyph_set_page info today cmap start_page).1
          = (List.insertionSort (fun a b => a ≤ b) cmap).map
              (fun cp => Item.cell cp (hex04 cp))
        ∧ (List.insertionSort (fun a b => a ≤ b) cmap).Sorted (· < ·)
        ∧ (List.insertionSort (fun a b => a ≤ b) cmap).Perm cmap)
    ∧ (glyph_set_page info0 ([]) (List.range' 65 26) 1).1.length = 1
    ∧ docCells (glyph_set_page info0 ([]) (List.range' 65 26) 1).1
      = [ Item.cell 65 (("0041").data), Item.cell 66 (("0042").data),
        Item.cell 67 (("0043").data), Item.cell 68 (("0044").data),
        Item.cell 69 (("0045").data), Item.cell 70 (("0046").data),
        Item.cell 71 (("0047").data), Item.cell 72 (("0048").data),
        Item.cell 73 (("0049").data), Item.cell 74 (("004A").data),
        Item.cell 75 (("004B").data), Item.cell 76 (("004C").data),
        Item.cell 77 (("004D").data), Item.cell 78 (("004E").data),
        Item.cell 79 (("004F").data), Item.cell 80 (("0050").data),
        Item.cell 81 (("0051").data), Item.cell 82 (("0052").data),
        Item.cell 83 (("0053").data), Item.cell 84 (("0054").data),
        Item.cell 85 (("0055").data), Item.cell 86 (("0056").data),
        Item.cell 87 (("0057").data), Item.cell 88 (("0058").data),
        Item.cell 89 (("0059").data), Item.cell 90 (("005A").data) ] := by
  refine ⟨?_, by decide, by decide⟩
  intro info today cmap start_page hnodup
  refine ⟨glyph_set_cells info today cmap start_page, ?_, List.perm_insertionSort _ _⟩
  have hsorted := List.sorted_insertionSort (fun a b => a ≤ b) cmap
  have hnd : (List.insertionSort (fun a b => a ≤ b) cmap).Nodup :=
    ((List.perm_insertionSort _ _).nodup_iff).2 hnodup
  exact List.Sorted.lt_of_le hsorted hnd

/-- Witness for C6 at a concrete two-element unsorted map. -/
theorem C6_witness :
    docCells (glyph_set_page info0 ([]) [90, 65] 1).1
      = (List.insertionSort (fun a b => a ≤ b) [90, 65]).map
          (fun cp => Item.cell cp (hex04 cp))
    ∧ (List.insertionSort (fun a b => a ≤ b) [90, 65]).Sorted (· < ·)
    ∧ (List.insertionSort (fun a b => a ≤ b) [90, 65]).Perm [90, 65] :=
  C6_glyph_enumeration.1 info0 ([]) [90, 65] 1 (by decide)

/-- One glyph grid step advances the geometry invariant by one cell. -/
theorem glyphStep_geom (info : FontInfo) (today : Str) (n : ℕ) (s : GlyphState) (cp : ℕ)
    (h : glyphGeomInv info today n s) :
    glyphGeomInv info today (n + 1) (glyphStep info today s cp) := by
  obtain ⟨hx, hy, hpn, hdone, hcur, hhead, hfoot⟩ := h
  have hcs : cell_size = 450 := by decide
  simp only [glyphStep, hcs, PAGE_WIDTH, MARGIN, PAGE_HEIGHT]
  rw [hx, hy]
  split_ifs with h1 h2
  · -- the row was full and the page was full: a fresh continuation page opens
    refine ⟨?_, ?_, ?_, ?_, ?_, ?_, ?_⟩
    · show (360 : ℤ) = 360 + 450 * (((n + 1) % 168 % 12 : ℕ) : ℤ)
      omega
    · show (7060 : ℤ) = 7060 - 450 * (((n + 1) % 168 / 12 : ℕ) : ℤ)
      omega
    · show s.page_num + 1 = 1 + (n + 1) / 168
      omega
    · show (s.done
          ++ [{ s.cur with items := s.cur.items ++ [Item.cell cp (hex04 cp)] }]).length
        = (n + 1) / 168
      simp only [List.length_append, List.length_cons, List.length_nil]
      omega
    · show ([] : List Item).length = (n + 1) % 168
      simp only [List.length_nil]
      omega
    · show some (draw_header info (glyphContTitle (s.page_num + 1)))
        = some (draw_header info (if (n + 1) / 168 = 0 then ("Character Set").data
            else glyphContTitle (1 + (n + 1) / 168)))
      have key1 : (n + 1) / 168 = n / 168 + 1 := by omega
      rw [hpn]
      simp only [key1, if_neg (Nat.succ_ne_zero _)]
      have harg : 1 + n / 168 + 1 = 1 + (n / 168 + 1) := by omega
      rw [harg]
    · show (some today : Option Str) = some today
      rfl
  · -- the row was full but the page was not: wrap to the next row
    refine ⟨?_, ?_, ?_, ?_, ?_, ?_, ?_⟩
    · show (360 : ℤ) = 360 + 450 * (((n + 1) % 168 % 12 : ℕ) : ℤ)
      omega
    · show 7060 - 450 * ((n % 168 / 12 : ℕ) : ℤ) - 450
        = 7060 - 450 * (((n + 1) % 168 / 12 : ℕ) : ℤ)
      omega
    · show s.page_num = 1 + (n + 1) / 168
      omega
    · show s.done.length = (n + 1) / 168
      omega
    · show (s.cur.items ++ [Item.cell cp (hex04 cp)]).length = (n + 1) % 168
      simp only [List.length_append, List.length_cons, List.length_nil]
      omega
    · show s.cur.header = some (draw_header info
        (if (n + 1) / 168 = 0 then ("Character Set").data
          else glyphContTitle (1 + (n + 1) / 168)))
      have key4 : (n + 1) / 168 = n / 168 := by omega
      simp only [key4]
      exact hhead
    · show s.cur.footer = some today
      exact hfoot
  · -- room in the row: advance one column
    refine ⟨?_, ?_, ?_, ?_, ?_, ?_, ?_⟩
    · show 360 + 450 * ((n % 168 % 12 : ℕ) : ℤ) + 450
        = 360 + 450 * (((n + 1) % 168 % 12 : ℕ) : ℤ)
      omega
    · show 7060 - 450 * ((n % 168 / 12 : ℕ) : ℤ)
        = 7060 - 450 * (((n + 1) % 168 / 12 : ℕ) : ℤ)
      omega
    · show s.page_num = 1 + (n + 1) / 168
      omega
    · show s.done.length = (n + 1) / 168
      omega
    · show (s.cur.items ++ [Item.cell cp (hex04 cp)]).length = (n + 1) % 168
      simp only [List.length_append, List.length_cons, List.length_nil]
      omega
    · show s.cur.header = some (draw_header info
        (if (n + 1) / 168 = 0 then ("Character Set").data
          else glyphContTitle (1 + (n + 1) / 168)))
      have key4 : (n + 1) / 168 = n / 168 := by omega
      simp only [key4]
      exact hhead
    · show s.cur.footer = some today
      exact hfoot

/-- The glyph grid fold advances the geometry invariant by the number of
codepoints processed. -/
theorem glyphFold_geom (info : FontInfo) (today : Str) :
    ∀ (l : List ℕ) (n : ℕ) (s : GlyphState),
      glyphGeomInv info today n s →
      glyphGeomInv info today (n + l.length) (l.foldl (glyphStep info today) s)
  | [], n, s, h => by simpa using h
  | cp :: l, n, s, h => by
    simp only [List.foldl_cons, List.length_cons]
    have h1 := glyphStep_geom info today n s cp h
    have h2 := glyphFold_geom info today l (n + 1) _ h1
    have harg : n + (l.length + 1) = n + 1 + l.length := by omega
    rw [harg]
    exact h2

/-- Claim C10: when the character map holds a positive multiple of 168
codepoints (12 columns by 14 rows fill each page exactly), the character set
template returns page number k + 1 and emits k + 1 pages, the last being a
trailing page with header and footer but zero glyph cells. -/
theorem C10_full_grid_trailing_page (info : FontInfo) (today : Str) (cmap : List ℕ)
    (k : ℕ) (hk : 0 < k) (hlen : cmap.length = 168 * k) :
    (glyph_set_page info today cmap 1).2 = k + 1
    ∧ (glyph_set_page info today cmap 1).1.length = k + 1
    ∧ (glyph_set_page info today cmap 1).1.getLast?
        = some { header := some (draw_header info (glyphContTitle (k + 1))),
                 footer := some today, items := [] } := by
  have hinit : glyphGeomInv info today 0
      { x := MARGIN, y := PAGE_HEIGHT - MARGIN - 500, page_num := 1,
        cur := freshGlyphPage info today (("Character Set").data), done := [] } := by
    simp [glyphGeomInv, freshGlyphPage, MARGIN, PAGE_HEIGHT]
  have hfin := glyphFold_geom info today
    (List.insertionSort (fun a b => a ≤ b) cmap) 0 _ hinit
  rw [List.length_insertionSort, hlen, Nat.zero_add] at hfin
  obtain ⟨hx, hy, hpn, hdone, hcur, hhead, hfoot⟩ := hfin
  have hmod : 168 * k % 168 = 0 := by omega
  have hdiv : 168 * k / 168 = k := by omega
  rw [hmod] at hcur
  rw [hdiv] at hpn hdone hhead
  have hempty : (List.foldl (glyphStep info today)
      { x := MARGIN, y := PAGE_HEIGHT - MARGIN - 500, page_num := 1,
        cur := freshGlyphPage info today (("Character Set").data), done := [] }
      (List.insertionSort (fun a b => a ≤ b) cmap)).cur
      = { header := some (draw_header info (glyphContTitle (k + 1))),
          footer := some today, items := [] } := by
    set scur := (List.foldl (glyphStep info today)
      { x := MARGIN, y := PAGE_HEIGHT - MARGIN - 500, page_num := 1,
        cur := freshGlyphPage info today (("Character Set").data), done := [] }
      (List.insertionSort (fun a b => a ≤ b) cmap)).cur with hscur
    rcases scur with ⟨ph, pf, pi⟩
    rw [if_neg (by omega : ¬ k = 0)] at hhead
    have harg : 1 + k = k + 1 := by omega
    rw [harg] at hhead
    simp only [List.length_eq_zero] at hcur
    simp only at hhead hfoot hcur
    rw [hhead, hfoot, hcur]
  refine ⟨?_, ?_, ?_⟩
  · show (List.foldl (glyphStep info today) _ _).page_num = k + 1
    rw [hpn]
    omega
  · show ((List.foldl (glyphStep info today) _ _).done ++ [_]).length = k + 1
    rw [List.length_append, hdone]
    simp
  · show ((List.foldl (glyphStep info today) _ _).done ++ [_]).getLast? = _
    rw [List.getLast?_concat, hempty]

/-- Witness for C10 at a concrete 168-codepoint map: two pages come back, the
second being the empty trailing page, and the returned page number is 2. -/
theorem C10_witness :
    (glyph_set_page info0 ([]) (List.range' 256 168) 1).2 = 2
    ∧ (glyph_set_page info0 ([]) (List.range' 256 168) 1).1.length = 2
    ∧ (glyph_set_page info0 ([]) (List.range' 256 168) 1).1.getLast?
        = some { header := some (draw_header info0 (glyphContTitle 2)),
                 footer := some ([]), items := [] } :=
  C10_full_grid_trailing_page info0 ([]) (List.range' 256 168) 1 (by decide)
    (by simp [List.length_range'])

end VirtuaGrotesk
